import Mathlib

/-!
Shallow embedding of the Aether kernel's process-execution subsystem
(task table, run queue, syscall dispatcher, ELF loader, dynamic-linking
relocator), translated from the Rust sources under `src/`, together with
theorems settling the specification claims.

Machine integers are modelled as `Nat` with explicit `% 2^64` where the
source relies on wrapping; fallible paths return explicit result types;
a Rust panic (slice-bounds failure) is a distinguished outcome value.
-/

namespace Aether

/-- `2^64`, the modulus of `u64` / `usize` arithmetic on x86_64. -/
def U64 : Nat := 18446744073709551616

/-- The cast `n as isize` of a `usize`/`u64` bit pattern (two's complement). -/
def isizeOf (n : Nat) : Int :=
  if n < 9223372036854775808 then (n : Int) else (n : Int) - (U64 : Int)

/-- The cast `i as u64` of an `i64` value (two's complement bit pattern). -/
def u64ofInt (i : Int) : Nat := (i.emod (U64 : Int)).toNat

/-- Wrapping `u64` subtraction `a - b` (the source's `sp -= n`, `addr - old_break`). -/
def wsub64 (a b : Nat) : Nat := (a + (U64 - b % U64)) % U64

/-! ## Task model (`src/sched/task.rs`) -/

/-- `TaskState` from task.rs. -/
inductive TaskState
  | Ready
  | Running
  | Blocked
  | Terminated
deriving DecidableEq, Repr

/-- `FileDescriptor` from task.rs.  The `Arc<dyn Inode>` is a shared
reference; we model it as an index into the kernel's store of inode
objects, so that cloning a descriptor (as `fd_table.clone()` does in
`Task::fork` and `dup`) copies the reference, not the inode's content. -/
structure FileDescriptor where
  inode : Nat
  offset : Nat
  flags : Nat
deriving DecidableEq, Repr

/-- `Task` from task.rs (the process control block). -/
structure Task where
  id : Nat
  parent_id : Nat
  state : TaskState
  stack : List Nat
  stack_top : Nat
  fd_table : List (Option FileDescriptor)
  saved_rsp : Nat
  saved_rip : Nat
  exit_status : Int
deriving DecidableEq, Repr

/-- `Task::new`.  `NEXT_PID.fetch_add(1, Relaxed)` hands out the old
counter value as the pid and stores it incremented with the `usize` wrap
at `2^64`; the counter is passed in explicitly and the bumped value
returned.  Slots 0/1/2 are pushed unset. -/
def Task.new (nextPid stackSize : Nat) : Task × Nat :=
  ({ id := nextPid
     parent_id := 0
     state := .Ready
     stack := List.replicate stackSize 0
     stack_top := 0
     fd_table := [none, none, none]
     saved_rsp := 0
     saved_rip := 0
     exit_status := 0 }, (nextPid + 1) % U64)

/-- `Task::fork`: a copy with a fresh pid from the same wrapping
`NEXT_PID.fetch_add(1)`; `stack.clone()` copies the stack bytes,
`fd_table.clone()` clones each `Arc` (same inode references). -/
def Task.fork (t : Task) (nextPid childRsp childRip : Nat) : Task × Nat :=
  ({ id := nextPid
     parent_id := t.id
     state := .Ready
     stack := t.stack
     stack_top := t.stack_top
     fd_table := t.fd_table
     saved_rsp := childRsp
     saved_rip := childRip
     exit_status := 0 }, (nextPid + 1) % U64)

/-- The slot-scan loop of `Task::add_file`: first `None` slot, if any. -/
def addFileScan (f : FileDescriptor) :
    List (Option FileDescriptor) → Option (Nat × List (Option FileDescriptor))
  | [] => none
  | none :: rest => some (0, some f :: rest)
  | some g :: rest =>
      (addFileScan f rest).map (fun p => (p.1 + 1, some g :: p.2))

/-- `Task::add_file`: store in the first free slot, else push a new slot;
returns the slot index and the updated task. -/
def Task.add_file (t : Task) (f : FileDescriptor) : Nat × Task :=
  match addFileScan f t.fd_table with
  | some (i, tbl) => (i, { t with fd_table := tbl })
  | none => (t.fd_table.length, { t with fd_table := t.fd_table ++ [some f] })

/-- `Task::get_file`: bounds-checked slot read (flattens the two `Option`s
exactly as `fd_table[fd].as_ref()` under the `fd < len` guard does). -/
def Task.get_file (t : Task) (fd : Nat) : Option FileDescriptor :=
  t.fd_table.getD fd none

/-! ## Byte memory helpers (for user buffers and the loader stack) -/

/-- Flat byte memory, address to byte. -/
def Mem : Type := Nat → Nat

/-- Write one byte. -/
def writeByte (m : Mem) (a v : Nat) : Mem :=
  fun x => if x = a then v else m x

/-- Write a byte list at consecutive ascending addresses. -/
def writeBytes (m : Mem) (a : Nat) : List Nat → Mem
  | [] => m
  | b :: rest => writeBytes (writeByte m a b) (a + 1) rest

/-- Read `n` bytes at consecutive ascending addresses. -/
def readBytes (m : Mem) (a : Nat) : Nat → List Nat
  | 0 => []
  | n + 1 => m a :: readBytes m (a + 1) n

/-- Store a `u64` little-endian (the `*(sp as *mut u64) = v` writes). -/
def writeU64 (m : Mem) (a v : Nat) : Mem :=
  writeBytes m a
    [v % 256, v / 256 % 256, v / 256 ^ 2 % 256, v / 256 ^ 3 % 256,
     v / 256 ^ 4 % 256, v / 256 ^ 5 % 256, v / 256 ^ 6 % 256, v / 256 ^ 7 % 256]

/-- Load a `u64` little-endian. -/
def readU64 (m : Mem) (a : Nat) : Nat :=
  m a + 256 * (m (a + 1) + 256 * (m (a + 2) + 256 * (m (a + 3) + 256 *
    (m (a + 4) + 256 * (m (a + 5) + 256 * (m (a + 6) + 256 * m (a + 7)))))))

/-- Little-endian read of `n` bytes out of a byte list (out-of-range bytes
read as 0); used to parse ELF header fields. -/
def readLE (d : List Nat) (off : Nat) : Nat → Nat
  | 0 => 0
  | n + 1 => d.getD off 0 + 256 * readLE d (off + 1) n

/-- The NUL-scan of `get_user_string` in syscall/mod.rs: scan until a zero
byte, giving up (`None`) once `len > 1024`.  `fuel` starts at 1026 which
dominates the cut-off, so the bounded recursion is exact. -/
def scanCString (m : Mem) (p : Nat) : Nat → Nat → Option Nat
  | 0, _ => none
  | fuel + 1, len =>
      if m (p + len) = 0 then some len
      else if len + 1 > 1024 then none
      else scanCString m p fuel (len + 1)

/-- `get_user_string`: the bytes of the NUL-terminated string at `p`,
`none` when longer than the 1024-byte safety limit. -/
def getUserString (m : Mem) (p : Nat) : Option (List Nat) :=
  (scanCString m p 1026 0).map (fun len => readBytes m p len)

/-! ## RamFS inode (`src/fs/ramfs.rs`)

Inode objects live behind `Arc<dyn Inode>`; the store of such objects is a
list in the kernel state and a `FileDescriptor.inode` is an index into it.
We model file nodes (`RamNodeData::File`), the only inodes the read/write
claims exercise. -/

/-- A RamFS file node: its content bytes. -/
structure RamFile where
  content : List Nat
deriving DecidableEq, Repr

/-- `RamNode::read_at` on a file: bytes copied out and the count returned
(`min(buf.len(), content.len() - off)`, or 0 past the end). -/
def RamFile.read_at (f : RamFile) (offset bufLen : Nat) : List Nat × Nat :=
  if f.content.length ≤ offset then ([], 0)
  else
    let len := min bufLen (f.content.length - offset)
    ((f.content.drop offset).take len, len)

/-- `RamNode::write_at` on a file: zero-extend to `off + buf.len()` if
needed, overwrite that range, return `buf.len()`. -/
def RamFile.write_at (f : RamFile) (offset : Nat) (buf : List Nat) : RamFile × Nat :=
  let endPos := offset + buf.length
  let content :=
    if f.content.length < endPos
    then f.content ++ List.replicate (endPos - f.content.length) 0
    else f.content
  ({ content := content.take offset ++ buf ++ content.drop endPos }, buf.length)

/-! ## Kernel state

The mutable statics of the source gathered into one record:
`CURRENT_TASK`, `RUN_QUEUE`, `ALL_TASKS` (sched/queue.rs), `NEXT_PID`
(task.rs), `PROGRAM_BREAK` and `BOOT_TIME` (syscall/mod.rs), user memory,
the store of `Arc`-shared inode objects, the VFS name table consulted by
`fs::open`, and the trace of `make_user_accessible` calls.  The
`Arc<Mutex<Task>>` aliasing between `CURRENT_TASK` and the queues is
modelled by treating the copy in `current` as the authoritative record of
the running task. -/
structure Kernel where
  current : Option Task
  runQueue : List Task
  allTasks : List Task
  nextPid : Nat
  programBreak : Nat
  bootTime : Nat
  umem : Mem
  inodes : List RamFile
  fsTree : List (List Nat × Nat)
  mapTrace : List (Nat × Nat)

/-! ## Syscall handlers (`src/syscall/mod.rs`) -/

/-- Read the inode object a descriptor refers to (an `Arc` deref; the
index is always valid in reachable states, the default covers the rest). -/
def Kernel.inodeAt (k : Kernel) (i : Nat) : RamFile :=
  k.inodes.getD i ⟨[]⟩

/-- `sys_read(fd, buf, count)`: no console special case — every fd goes
through the descriptor table; a populated slot reads from the inode at the
descriptor's offset, advances the offset by the count the inode reports
and returns that count; otherwise `-9` (EBADF). -/
def sys_read (k : Kernel) (fd bufPtr count : Nat) : Int × Kernel :=
  match k.current with
  | some task =>
    match task.fd_table.getD fd none with
    | some file =>
        let r := (k.inodeAt file.inode).read_at file.offset count
        let file' := { file with offset := (file.offset + r.2) % U64 }
        let task' := { task with fd_table := task.fd_table.set fd (some file') }
        (isizeOf r.2,
         { k with current := some task', umem := writeBytes k.umem bufPtr r.1 })
    | none => (-9, k)
  | none => (-9, k)

/-- `sys_write(fd, buf, count)`: fd 1/2 bypass the descriptor table and go
to the kernel console log, returning `count`; other fds need a populated
slot, write through the inode, advance the offset by the count the inode
reports and return it; otherwise `-9` (EBADF). -/
def sys_write (k : Kernel) (fd bufPtr count : Nat) : Int × Kernel :=
  if fd = 1 ∨ fd = 2 then (isizeOf count, k)
  else
    match k.current with
    | some task =>
      match task.fd_table.getD fd none with
      | some file =>
          let buf := readBytes k.umem bufPtr count
          let r := (k.inodeAt file.inode).write_at file.offset buf
          let file' := { file with offset := (file.offset + r.2) % U64 }
          let task' := { task with fd_table := task.fd_table.set fd (some file') }
          (isizeOf r.2,
           { k with current := some task',
                    inodes := k.inodes.set file.inode r.1 })
      | none => (-9, k)
    | none => (-9, k)

/-- `sys_open(filename, flags, mode)`: fetch the path string, resolve it
in the VFS, allocate a descriptor slot in the current task. -/
def sys_open (k : Kernel) (filename flags : Nat) : Int × Kernel :=
  match getUserString k.umem filename with
  | none => (-2, k)
  | some path =>
    match (k.fsTree.find? (fun e => e.1 = path)).map Prod.snd with
    | some idx =>
        match k.current with
        | some task =>
            let r := task.add_file ⟨idx, 0, flags⟩
            (isizeOf r.1, { k with current := some r.2 })
        | none => (-1, k)
    | none => (-2, k)

/-- `sys_close(fd)`: clear the slot when in bounds, else `-9`. -/
def sys_close (k : Kernel) (fd : Nat) : Int × Kernel :=
  match k.current with
  | some task =>
      if fd < task.fd_table.length then
        (0, { k with current := some { task with fd_table := task.fd_table.set fd none } })
      else (-9, k)
  | none => (-9, k)

/-- `sys_stat`: stub returning 0. -/
def sys_stat (k : Kernel) : Int × Kernel := (0, k)

/-- `sys_fstat(fd, statbuf)`: writes a minimal stat record, returns 0. -/
def sys_fstat (k : Kernel) (statbuf : Nat) : Int × Kernel :=
  if statbuf ≠ 0 then
    (0, { k with umem := writeU64 (writeU64 k.umem (statbuf + 8) 0o100644) (statbuf + 48) 0 })
  else (0, k)

/-- `sys_lseek(fd, offset, whence)`: SEEK_SET overwrites the offset,
SEEK_CUR adds to it, SEEK_END (2) leaves it unchanged, any other whence is
`-22` (EINVAL); an empty or absent slot is `-9` (EBADF); on success the
(possibly updated) offset is returned. -/
def sys_lseek (k : Kernel) (fd : Nat) (offset : Int) (whence : Nat) : Int × Kernel :=
  match k.current with
  | some task =>
    match task.fd_table.getD fd none with
    | some file =>
        if whence = 0 then
          let file' := { file with offset := u64ofInt offset }
          (isizeOf file'.offset,
           { k with current := some { task with fd_table := task.fd_table.set fd (some file') } })
        else if whence = 1 then
          let file' := { file with offset := u64ofInt (isizeOf file.offset + offset) }
          (isizeOf file'.offset,
           { k with current := some { task with fd_table := task.fd_table.set fd (some file') } })
        else if whence = 2 then
          (isizeOf file.offset, k)
        else (-22, k)
    | none => (-9, k)
  | none => (-9, k)

/-- `sys_ioctl(fd, cmd, arg)`: terminal queries succeed, others `-25`. -/
def sys_ioctl (cmd : Nat) (k : Kernel) : Int × Kernel :=
  if cmd = 0x5401 then (0, k)
  else if cmd = 0x5402 then (0, k)
  else if cmd = 0x5413 then (0, k)
  else (-25, k)

/-- `sys_dup(oldfd)`: clone the descriptor record (sharing the inode
reference) into the first free slot. -/
def sys_dup (k : Kernel) (oldfd : Nat) : Int × Kernel :=
  match k.current with
  | some task =>
    match task.fd_table.getD oldfd none with
    | some file =>
        let r := task.add_file file
        (isizeOf r.1, { k with current := some r.2 })
    | none => (-9, k)
  | none => (-9, k)

/-- `sys_dup2(oldfd, newfd)`: extend the table with empty slots up to
`newfd`, then alias the descriptor there. -/
def sys_dup2 (k : Kernel) (oldfd newfd : Nat) : Int × Kernel :=
  match k.current with
  | some task =>
    match task.fd_table.getD oldfd none with
    | some file =>
        let tbl := task.fd_table ++
          List.replicate (newfd + 1 - task.fd_table.length) none
        (isizeOf newfd,
         { k with current := some { task with fd_table := tbl.set newfd (some file) } })
    | none => (-9, k)
  | none => (-9, k)

/-- `sys_pipe`: not implemented. -/
def sys_pipe (k : Kernel) : Int × Kernel := (-38, k)

/-- `sys_munmap`: stub returning 0. -/
def sys_munmap (k : Kernel) : Int × Kernel := (0, k)

/-- `sys_brk(addr)`: `addr = 0` queries the break; an address inside the
fixed 8MB–16MB window moves the break and maps the delta; else `-12`. -/
def sys_brk (k : Kernel) (addr : Nat) : Int × Kernel :=
  if addr = 0 then (isizeOf k.programBreak, k)
  else if 0x800000 ≤ addr ∧ addr ≤ 0x1000000 then
    (isizeOf addr,
     { k with programBreak := addr,
              mapTrace := k.mapTrace ++ [(k.programBreak, wsub64 addr k.programBreak)] })
  else (-12, k)

/-- `sys_mmap(addr, length, prot)`: anonymous only; `addr = 0` bumps the
`PROGRAM_BREAK` cursor, nonzero `addr` is a fixed mapping; both page-round
the length and record a `make_user_accessible` call. -/
def sys_mmap (k : Kernel) (addr length : Nat) : Int × Kernel :=
  let alignedLen := (length + 4095) / 4096 * 4096
  if addr = 0 then
    (isizeOf k.programBreak,
     { k with programBreak := (k.programBreak + alignedLen) % U64,
              mapTrace := k.mapTrace ++ [(k.programBreak, alignedLen)] })
  else
    (isizeOf addr, { k with mapTrace := k.mapTrace ++ [(addr, alignedLen)] })

/-- `sys_getpid`: the current task's pid, defaulting to 1. -/
def sys_getpid (k : Kernel) : Int × Kernel :=
  match k.current with
  | some task => (isizeOf task.id, k)
  | none => (1, k)

/-- `spawn_task` (sched/queue.rs): push onto `ALL_TASKS` and the run
queue, return the pid. -/
def spawn_task (k : Kernel) (t : Task) : Nat × Kernel :=
  (t.id, { k with allTasks := k.allTasks ++ [t], runQueue := k.runQueue ++ [t] })

/-- `sys_fork`: duplicate the current task via `Task::fork` with a zeroed
child context (`child_rsp = 0`, `child_rip = 0` — the source never derives
the child's saved context from the live trap frame), enqueue the child,
and return the child pid to the parent. -/
def sys_fork (k : Kernel) : Int × Kernel :=
  match k.current with
  | none => (-1, k)
  | some parent =>
      let r := parent.fork k.nextPid 0 0
      let k' := (spawn_task { k with nextPid := r.2 } r.1).2
      (isizeOf r.1.id, k')

/-- `sys_clone`: implemented as fork, flags ignored. -/
def sys_clone (k : Kernel) : Int × Kernel := sys_fork k

/-- `sys_wait4`: not implemented, `-10` (ECHILD). -/
def sys_wait4 (k : Kernel) : Int × Kernel := (-10, k)

/-- `sys_gettimeofday(tv, tz)`: bump the synthetic counter and store it. -/
def sys_gettimeofday (k : Kernel) (tv : Nat) : Int × Kernel :=
  if tv ≠ 0 then
    (0, { k with bootTime := k.bootTime + 1,
                 umem := writeU64 (writeU64 k.umem tv (k.bootTime + 1)) (tv + 8) 0 })
  else (0, k)

/-- `sys_nanosleep`: busy-spins (no state effect), returns 0. -/
def sys_nanosleep (k : Kernel) : Int × Kernel := (0, k)

/-- `sys_clock_gettime(clock_id, tp)`: same synthetic counter. -/
def sys_clock_gettime (k : Kernel) (tp : Nat) : Int × Kernel :=
  if tp ≠ 0 then
    (0, { k with bootTime := k.bootTime + 1,
                 umem := writeU64 (writeU64 k.umem tp (k.bootTime + 1)) (tp + 8) 0 })
  else (0, k)

/-- `sys_uname(buf)`: fixed identification strings at 65-byte strides. -/
def sys_uname (k : Kernel) (buf : Nat) : Int × Kernel :=
  if buf ≠ 0 then
    let m1 := writeBytes k.umem buf [65, 101, 116, 104, 101, 114, 0]
    let m2 := writeBytes m1 (buf + 65) [97, 101, 116, 104, 101, 114, 0]
    let m3 := writeBytes m2 (buf + 130) [48, 46, 49, 46, 48, 0]
    let m4 := writeBytes m3 (buf + 195) [35, 49, 32, 83, 77, 80, 0]
    let m5 := writeBytes m4 (buf + 260) [120, 56, 54, 95, 54, 52, 0]
    (0, { k with umem := m5 })
  else (0, k)

/-- `sys_getcwd(buf, size)`: writes `"/"` and returns `buf`, or `-34`. -/
def sys_getcwd (k : Kernel) (buf size : Nat) : Int × Kernel :=
  if buf ≠ 0 ∧ 1 < size then
    (isizeOf buf, { k with umem := writeBytes k.umem buf [47, 0] })
  else (-34, k)

/-- `sys_chdir`: stub returning 0. -/
def sys_chdir (k : Kernel) : Int × Kernel := (0, k)

/-- `sys_getuid`/`sys_getgid`/`sys_geteuid`/`sys_getegid`: fixed 0. -/
def sys_getid (k : Kernel) : Int × Kernel := (0, k)

/-- Outcome of one `dispatch` call.  `ret` is a handler returning a value;
`halted` is `sys_exit`, which marks the task Terminated and then spins in
`hlt` forever; `execveCall` is the `SYS_EXECVE` arm, whose body (ELF load,
stack setup, privilege transition — it never returns on success) is
modelled separately by `loadElf` / `setup_user_stack` below. -/
inductive SysOutcome
  | ret : Int → Kernel → SysOutcome
  | halted : Kernel → SysOutcome
  | execveCall : Nat → Nat → Nat → Kernel → SysOutcome

/-- `sys_exit(code)`: mark the current task Terminated, then loop forever. -/
def sys_exit (k : Kernel) : SysOutcome :=
  match k.current with
  | some task => .halted { k with current := some { task with state := .Terminated } }
  | none => .halted k

/-- Lift an ordinary handler result into an outcome. -/
def retOf (r : Int × Kernel) : SysOutcome := .ret r.1 r.2

/-- `dispatch(nr, arg0, arg1, arg2)` from syscall/mod.rs: the total match
over syscall numbers; every unlisted number falls through to the fixed
`-38` (ENOSYS) arm.  The Rust `match` on integer constants is embedded as
the equivalent chain of equality tests, in source order. -/
def dispatch (nr a0 a1 a2 : Nat) (k : Kernel) : SysOutcome :=
  if nr = 0 then retOf (sys_read k a0 a1 a2)
  else if nr = 1 then retOf (sys_write k a0 a1 a2)
  else if nr = 2 then retOf (sys_open k a0 a1)
  else if nr = 3 then retOf (sys_close k a0)
  else if nr = 4 then retOf (sys_stat k)
  else if nr = 5 then retOf (sys_fstat k a1)
  else if nr = 8 then retOf (sys_lseek k a0 (isizeOf a1) a2)
  else if nr = 9 then retOf (sys_mmap k a0 a1)
  else if nr = 11 then retOf (sys_munmap k)
  else if nr = 12 then retOf (sys_brk k a0)
  else if nr = 16 then retOf (sys_ioctl a1 k)
  else if nr = 32 then retOf (sys_dup k a0)
  else if nr = 33 then retOf (sys_dup2 k a0 a1)
  else if nr = 22 then retOf (sys_pipe k)
  else if nr = 39 then retOf (sys_getpid k)
  else if nr = 57 then retOf (sys_fork k)
  else if nr = 56 then retOf (sys_clone k)
  else if nr = 59 then .execveCall a0 a1 a2 k
  else if nr = 60 then sys_exit k
  else if nr = 61 then retOf (sys_wait4 k)
  else if nr = 96 then retOf (sys_gettimeofday k a0)
  else if nr = 35 then retOf (sys_nanosleep k)
  else if nr = 228 then retOf (sys_clock_gettime k a1)
  else if nr = 63 then retOf (sys_uname k a0)
  else if nr = 79 then retOf (sys_getcwd k a0 a1)
  else if nr = 80 then retOf (sys_chdir k)
  else if nr = 102 then retOf (sys_getid k)
  else if nr = 104 then retOf (sys_getid k)
  else if nr = 107 then retOf (sys_getid k)
  else if nr = 108 then retOf (sys_getid k)
  else .ret (-38) k

/-- The syscall numbers with a handler arm in `dispatch`. -/
def implementedSyscalls : List Nat :=
  [0, 1, 2, 3, 4, 5, 8, 9, 11, 12, 16, 32, 33, 22, 39, 57, 56, 59, 60, 61,
   96, 35, 228, 63, 79, 80, 102, 104, 107, 108]

/-! ## ELF loader (`src/syscall/elf.rs`) -/

/-- A loaded `PT_LOAD` segment: absolute vaddr and `p_memsz`. -/
structure LoadedSegment where
  vaddr : Nat
  size : Nat
deriving DecidableEq, Repr

/-- `LoadedElf` from elf.rs (`interp` raw bytes; the source additionally
checks UTF-8 validity before storing the path, which no claim touches). -/
structure LoadedElf where
  entry_point : Nat
  segments : List LoadedSegment
  interp : Option (List Nat)
  phdr_vaddr : Nat
  phnum : Nat
  phentsize : Nat
deriving DecidableEq, Repr

/-- Result of `load_elf`: `ok`, the `Err(&'static str)` value, or a Rust
panic (slice index out of range on `&data[p_offset .. p_offset+p_filesz]`). -/
inductive LoadResult
  | ok : LoadedElf → LoadResult
  | err : String → LoadResult
  | panicked : LoadResult
deriving DecidableEq, Repr

/-- Accumulator of the program-header loop: segments, interp path,
`phdr_vaddr`, and the trace of `make_user_accessible(vaddr, len)` calls. -/
structure PhdrAcc where
  segments : List LoadedSegment
  interp : Option (List Nat)
  phdr_vaddr : Nat
  trace : List (Nat × Nat)

/-- The `for i in 0..e_phnum` loop of `load_elf`, entry `i`, `count`
entries left.  Per entry: bounds-check the header record itself, then for
`PT_LOAD` map the segment (traced) and copy `p_filesz` bytes — a file
range past the buffer is a slice panic, after the mapping call; for
`PT_INTERP` slice out the path (same panic). -/
def phdrLoop (data : List Nat) (base phoff phentsize : Nat) :
    Nat → Nat → PhdrAcc → LoadResult × List (Nat × Nat)
  | 0, _, acc =>
      (.ok { entry_point := (base + readLE data 24 8) % U64
             segments := acc.segments
             interp := acc.interp
             phdr_vaddr := acc.phdr_vaddr
             phnum := readLE data 56 2
             phentsize := phentsize }, acc.trace)
  | count + 1, i, acc =>
      let off := phoff + i * phentsize
      if data.length < off + 56 then (.err "Program header out of bounds", acc.trace)
      else
        let ptype := readLE data off 4
        let pOffset := readLE data (off + 8) 8
        let pVaddr := readLE data (off + 16) 8
        let pFilesz := readLE data (off + 32) 8
        let pMemsz := readLE data (off + 40) 8
        if ptype = 1 then
          let vaddr := (base + pVaddr) % U64
          let phv := if pOffset = 0 then (base + phoff + pVaddr) % U64 else acc.phdr_vaddr
          let tr := acc.trace ++ [(vaddr, pMemsz)]
          if data.length < pOffset + pFilesz then (.panicked, tr)
          else
            phdrLoop data base phoff phentsize count (i + 1)
              { segments := acc.segments ++ [⟨vaddr, pMemsz⟩]
                interp := acc.interp
                phdr_vaddr := phv
                trace := tr }
        else if ptype = 3 then
          if data.length < pOffset + pFilesz then (.panicked, acc.trace)
          else
            let src := (data.drop pOffset).take pFilesz
            let path := if src.getLast? = some 0 then src.dropLast else src
            phdrLoop data base phoff phentsize count (i + 1)
              { acc with interp := some path }
        else phdrLoop data base phoff phentsize count (i + 1) acc

/-- `load_elf(data, base_addr)`: header-size check, magic check, 64-bit
class check, then the program-header loop.  Second component is the trace
of `make_user_accessible` calls issued before the function ended. -/
def loadElf (data : List Nat) (base : Nat) : LoadResult × List (Nat × Nat) :=
  if data.length < 64 then (.err "Data too small for ELF header", [])
  else if ¬(data.getD 0 0 = 0x7f ∧ data.getD 1 0 = 0x45 ∧
            data.getD 2 0 = 0x4c ∧ data.getD 3 0 = 0x46) then
    (.err "Invalid ELF magic", [])
  else if data.getD 4 0 ≠ 2 then (.err "Not a 64-bit ELF", [])
  else
    phdrLoop data base (readLE data 32 8) (readLE data 54 2) (readLE data 56 2) 0
      { segments := [], interp := none, phdr_vaddr := 0, trace := [] }

/-! ## `setup_user_stack` (`src/syscall/elf.rs`) -/

/-- `sp &= !0xF`: clear the low four bits. -/
def align16down (sp : Nat) : Nat := sp - sp % 16

/-- The string-copy loops: iterate in reverse input order (so the recursion
pushes the tail first, at higher addresses), per string `sp -= len + 1`,
16-align down, copy the bytes plus a NUL, and `insert(0, sp)` the pointer. -/
def pushStrs (m : Mem) (sp : Nat) : List (List Nat) → Mem × Nat × List Nat
  | [] => (m, sp, [])
  | s :: rest =>
      let r := pushStrs m sp rest
      let sp1 := align16down (wsub64 r.2.1 (s.length + 1))
      (writeBytes r.1 sp1 (s ++ [0]), sp1, sp1 :: r.2.2)

/-- The auxv push loop (reverse order, 16 bytes per key/value pair). -/
def pushAuxv (m : Mem) (sp : Nat) : List (Nat × Nat) → Mem × Nat
  | [] => (m, sp)
  | e :: rest =>
      let r := pushAuxv m sp rest
      let sp1 := wsub64 r.2 16
      (writeU64 (writeU64 r.1 sp1 e.1) (sp1 + 8) e.2, sp1)

/-- The pointer-array push loops (reverse order, 8 bytes each). -/
def pushPtrs (m : Mem) (sp : Nat) : List Nat → Mem × Nat
  | [] => (m, sp)
  | p :: rest =>
      let r := pushPtrs m sp rest
      let sp1 := wsub64 r.2 8
      (writeU64 r.1 sp1 p, sp1)

/-- `setup_user_stack(stack_top, argv, envp, auxv)`: strings high to low,
the `AT_NULL` pair, the auxv pairs, a NULL envp terminator, the envp
pointers, a NULL argv terminator, the argv pointers, then `argc`; returns
the final `sp` and the written memory (initially all-zero). -/
def setup_user_stack (stackTop : Nat) (argv envp : List (List Nat))
    (auxv : List (Nat × Nat)) : Nat × Mem :=
  let m0 : Mem := fun _ => 0
  let re := pushStrs m0 stackTop envp
  let ra := pushStrs re.1 re.2.1 argv
  let sp0 := align16down ra.2.1
  let spAtNull := wsub64 sp0 16
  let m1 := writeU64 (writeU64 ra.1 spAtNull 0) (spAtNull + 8) 0
  let rx := pushAuxv m1 spAtNull auxv
  let spEnvNull := wsub64 rx.2 8
  let m2 := writeU64 rx.1 spEnvNull 0
  let rEnv := pushPtrs m2 spEnvNull re.2.2
  let spArgNull := wsub64 rEnv.2 8
  let m3 := writeU64 rEnv.1 spArgNull 0
  let rArg := pushPtrs m3 spArgNull ra.2.2
  let spArgc := wsub64 rArg.2 8
  (spArgc, writeU64 rArg.1 spArgc argv.length)

/-! ## Dynamic linker (`src/syscall/dynlink.rs`) -/

/-- `Elf64Rela`: offset, info (low 32 bits type, high 32 symbol index),
signed addend. -/
structure Elf64Rela where
  r_offset : Nat
  r_info : Nat
  r_addend : Int
deriving DecidableEq, Repr

/-- `LoadedLibrary` from dynlink.rs (name dropped — only logged). -/
structure LoadedLibrary where
  base_addr : Nat
  symtab : Nat
  strtab : Nat
  rela : Nat
  relasz : Nat
  jmprel : Nat
  pltrelsz : Nat
  init_addr : Nat
deriving DecidableEq, Repr

/-- `apply_relocation(lib, rela)`: dispatch on the low 32 bits of
`r_info`.  Reads (symbol-table entries) come from the byte memory `m`;
the one write per taken branch is the 8-byte store to
`base_addr + r_offset`.  RELATIVE stores `base + addend` (wrapping);
GLOB_DAT/JUMP_SLOT store `base + st_value` when the symbol resolves
(`st_value` at offset 8 of the 24-byte `Elf64Sym`), and unresolved
symbols are logged and left unmodified; `R_X86_64_64` stores
`base + st_value + addend`; NONE and unknown types write nothing. -/
def apply_relocation (m : Mem) (lib : LoadedLibrary) (rela : Elf64Rela) : Mem :=
  let rtype := rela.r_info % 4294967296
  let rsym := rela.r_info / 4294967296
  let addr := (lib.base_addr + rela.r_offset) % U64
  if rtype = 8 then
    writeU64 m addr ((lib.base_addr + u64ofInt rela.r_addend) % U64)
  else if rtype = 6 ∨ rtype = 7 then
    if lib.symtab ≠ 0 then
      let stValue := readU64 m ((lib.symtab + rsym * 24) % U64 + 8)
      if stValue ≠ 0 then writeU64 m addr ((lib.base_addr + stValue) % U64) else m
    else m
  else if rtype = 1 then
    if lib.symtab ≠ 0 ∧ 0 < rsym then
      let stValue := readU64 m ((lib.symtab + rsym * 24) % U64 + 8)
      writeU64 m addr ((lib.base_addr + stValue + u64ofInt rela.r_addend) % U64)
    else m
  else m

/-! ## Scheduler used by the timer interrupt

The timer handler (`src/interrupts.rs`) drives
`aether_core::scheduler::Scheduler`, whose source is not part of this
tree (only `src/main.rs`, `src/globals.rs` and the handler call into it);
the round-robin stub in `src/sched/mod.rs` is an empty historical
duplicate.  The scheduler itself is therefore modelled from the spec. -/

/-- Modelled from the spec: a process record of the missing
`aether_core::scheduler` module — pid, state, and the saved stack-pointer
slot the timer handler resolves (`schedule` itself never touches it). -/
structure SProc where
  pid : Nat
  state : TaskState
  stack_pointer : Nat
deriving DecidableEq, Repr

/-- Modelled from the spec: the missing `aether_core::scheduler::Scheduler`
— a process table, a FIFO run queue of runnable pids, the current pid, and
the pid counter. -/
structure Scheduler where
  processes : List SProc
  queue : List Nat
  current_pid : Option Nat
  next_pid : Nat
deriving DecidableEq, Repr

/-- Modelled from the spec: `spawn` creates a Ready process and enqueues
it at the tail, returning the fresh pid. -/
def Scheduler.spawn (s : Scheduler) : Nat × Scheduler :=
  (s.next_pid,
   { s with processes := s.processes ++ [⟨s.next_pid, .Ready, 0⟩]
            queue := s.queue ++ [s.next_pid]
            next_pid := s.next_pid + 1 })

/-- State lookup in the process table (Terminated when absent). -/
def Scheduler.getState (s : Scheduler) (pid : Nat) : TaskState :=
  ((s.processes.find? (fun p => p.pid = pid)).map SProc.state).getD .Terminated

/-- Update one process's state. -/
def Scheduler.setState (s : Scheduler) (pid : Nat) (st : TaskState) : Scheduler :=
  { s with processes :=
      s.processes.map (fun p => if p.pid = pid then { p with state := st } else p) }

/-- Modelled from the spec: `schedule()` of the missing
`aether_core::scheduler::Scheduler` is a pure round-robin decision — pop
the queue head, preempt the previous running task to Ready and requeue it
at the tail if still Ready, mark the head Running, and return its pid
without performing the context switch (the timer handler does that). -/
def Scheduler.schedule (s : Scheduler) : Option Nat × Scheduler :=
  match s.queue with
  | [] => (none, s)
  | next :: rest =>
      let s1 : Scheduler := match s.current_pid with
        | some prev => if s.getState prev = .Running then s.setState prev .Ready else s
        | none => s
      let q : List Nat := match s.current_pid with
        | some prev => if s1.getState prev = .Ready then rest ++ [prev] else rest
        | none => rest
      let s2 := s1.setState next .Running
      (some next, { s2 with queue := q, current_pid := some next })

/-- The pid returned by the `i`-th of a run of repeated `schedule()`
calls (counting from 0). -/
def schedNth (s : Scheduler) : Nat → Option Nat
  | 0 => (s.schedule).1
  | i + 1 => schedNth (s.schedule).2 i

/-! ## Task-creation sequences (`Task::new`/`spawn_task` and `fork`) -/

/-- One task creation: a spawn (`Task::new` + `spawn_task`) or a fork of
the task at position `idx` of `ALL_TASKS` (`Task::fork` + `spawn_task`). -/
inductive CreateOp
  | spawnNew (stackSize : Nat)
  | forkOf (idx : Nat)
deriving DecidableEq, Repr

/-- Fallback for an out-of-range fork source (unreachable in the kernel;
pid assignment is independent of the parent record). -/
def defaultTask : Task := (Task.new 0 0).1

/-- Perform one creation, returning the assigned pid. -/
def doCreate (k : Kernel) : CreateOp → Nat × Kernel
  | .spawnNew stackSize =>
      let r := Task.new k.nextPid stackSize
      spawn_task { k with nextPid := r.2 } r.1
  | .forkOf idx =>
      let parent := k.allTasks.getD idx defaultTask
      let r := parent.fork k.nextPid 0 0
      spawn_task { k with nextPid := r.2 } r.1

/-- Perform a sequence of creations, collecting the pids in order. -/
def doCreates (k : Kernel) : List CreateOp → List Nat × Kernel
  | [] => ([], k)
  | op :: ops =>
      let r := doCreate k op
      let rest := doCreates r.2 ops
      (r.1 :: rest.1, rest.2)

/-! ## Theorems -/

/-- Every creation step assigns the current `NEXT_PID` value and stores
the counter incremented with the `usize` wrap. -/
theorem doCreate_pid (k : Kernel) (op : CreateOp) :
    (doCreate k op).1 = k.nextPid ∧ (doCreate k op).2.nextPid = (k.nextPid + 1) % U64 := by
  cases op <;> simp [doCreate, Task.new, Task.fork, spawn_task]

/-- As long as the creation sequence cannot exhaust the 64-bit counter
(`nextPid + length ≤ 2^64`), no wrap occurs and the assigned pids form
the interval `[nextPid, nextPid + length)`. -/
theorem doCreates_pids (ops : List CreateOp) :
    ∀ k : Kernel, k.nextPid + ops.length ≤ U64 →
      (doCreates k ops).1 = List.range' k.nextPid ops.length := by
  induction ops with
  | nil => intro k _; rfl
  | cons op ops ih =>
      intro k hbound
      have h := doCreate_pid k op
      simp only [doCreates, List.length_cons, List.range']
      by_cases hlt : k.nextPid + 1 < U64
      · have hmod : (k.nextPid + 1) % U64 = k.nextPid + 1 := Nat.mod_eq_of_lt hlt
        have hrec := ih (doCreate k op).2
        rw [h.2, hmod] at hrec
        rw [hrec (by simp only [List.length_cons] at hbound; omega), h.1]
      · have hlen : ops.length = 0 := by
          simp only [List.length_cons] at hbound; omega
        rw [List.length_eq_zero.mp hlen] at *
        simp [doCreates, h.1]

theorem le_of_mem_range1 :
    ∀ (n s m : Nat), m ∈ List.range' s n → s ≤ m := by
  intro n
  induction n with
  | zero => intro s m h; simp [List.range'] at h
  | succ n ih =>
      intro s m h
      simp only [List.range', List.mem_cons] at h
      rcases h with h | h
      · omega
      · have := ih (s + 1) m h; omega

theorem pairwise_lt_range1 :
    ∀ (n s : Nat), (List.range' s n).Pairwise (· < ·) := by
  intro n
  induction n with
  | zero => intro s; simp [List.range']
  | succ n ih =>
      intro s
      simp only [List.range', List.pairwise_cons]
      exact ⟨fun m hm => lt_of_lt_of_le (Nat.lt_succ_self s) (le_of_mem_range1 n (s + 1) m hm),
             ih (s + 1)⟩

/-- The boot kernel state: no current task, empty queues and stores,
`NEXT_PID = 1`, `PROGRAM_BREAK = 0x800000`. -/
def kernelBase : Kernel :=
  { current := none, runQueue := [], allTasks := [], nextPid := 1
    programBreak := 0x800000, bootTime := 0, umem := fun _ => 0
    inodes := [], fsTree := [], mapTrace := [] }

/-- A kernel state whose pid counter sits one allocation before the
`usize` wrap (the state after `2^64 - 2` creations from boot, where
`NEXT_PID` starts at 1). -/
def kWrap : Kernel := { kernelBase with nextPid := U64 - 1 }

/-- C1 counterexample: `NEXT_PID.fetch_add(1)` wraps at `2^64`, so a
creation sequence crossing the wrap assigns pids `2^64 - 1` and then `0` —
not strictly increasing. -/
theorem created_pids_wrap_counterexample :
    (doCreates kWrap [.spawnNew 0, .spawnNew 0]).1 = [U64 - 1, 0] ∧
    ¬ ((doCreates kWrap [.spawnNew 0, .spawnNew 0]).1.Pairwise (· < ·)) := by
  constructor <;> decide

/-- C1 amended: for every sequence of task creations via spawn
(`Task::new` + `spawn_task`) and fork that cannot exhaust the 64-bit pid
counter (`nextPid + number of creations ≤ 2^64`; from boot `NEXT_PID`
starts at 1, so any sequence of at most `2^64 - 2` creations), the
assigned pids are strictly increasing in creation order, hence pairwise
unique: each creation takes the current counter value and increments it,
wrapping only at `2^64`. -/
theorem created_pids_strictly_increasing (k : Kernel) (ops : List CreateOp)
    (hbound : k.nextPid + ops.length ≤ U64) :
    ((doCreates k ops).1).Pairwise (· < ·) ∧ ((doCreates k ops).1).Nodup := by
  rw [doCreates_pids ops k hbound]
  refine ⟨pairwise_lt_range1 _ _, ?_⟩
  exact (pairwise_lt_range1 ops.length k.nextPid).imp Nat.ne_of_lt

theorem created_pids_strictly_increasing_witness :
    kernelBase.nextPid + ([CreateOp.spawnNew 0, .forkOf 0, .spawnNew 0] : List CreateOp).length ≤ U64 ∧
    (((doCreates kernelBase [.spawnNew 0, .forkOf 0, .spawnNew 0]).1).Pairwise (· < ·) ∧
      ((doCreates kernelBase [.spawnNew 0, .forkOf 0, .spawnNew 0]).1).Nodup) :=
  ⟨by decide,
   created_pids_strictly_increasing kernelBase [.spawnNew 0, .forkOf 0, .spawnNew 0]
     (by decide)⟩

/-- When the slot scan finds a free slot: it is the least one, in range,
and only that slot is filled. -/
theorem addFileScan_some (f : FileDescriptor) :
    ∀ (l : List (Option FileDescriptor)) (i : Nat) (l' : List (Option FileDescriptor)),
      addFileScan f l = some (i, l') →
      i < l.length ∧ l.getD i none = none ∧
        (∀ j, j < i → (l.getD j none).isSome = true) ∧ l' = l.set i (some f) := by
  intro l
  induction l with
  | nil => intro i l' h; simp [addFileScan] at h
  | cons hd tl ih =>
      intro i l' h
      cases hd with
      | none =>
          simp only [addFileScan, Option.some.injEq, Prod.mk.injEq] at h
          refine ⟨?_, ?_, ?_, ?_⟩ <;> simp [← h.1, ← h.2]
      | some g =>
          simp only [addFileScan, Option.map_eq_some'] at h
          obtain ⟨⟨i0, l0⟩, hrec, heq⟩ := h
          obtain ⟨h1, h2, h3, h4⟩ := ih i0 l0 hrec
          obtain ⟨hi, hl⟩ := Prod.mk.injEq .. ▸ heq
          subst hi; subst hl
          refine ⟨by simpa using h1, by simpa using h2, ?_, by simp [h4]⟩
          intro j hj
          cases j with
          | zero => rfl
          | succ j => exact h3 j (by omega)

/-- When the slot scan finds nothing, every slot is populated. -/
theorem addFileScan_none (f : FileDescriptor) :
    ∀ (l : List (Option FileDescriptor)),
      addFileScan f l = none → ∀ j, j < l.length → (l.getD j none).isSome = true := by
  intro l
  induction l with
  | nil => intro _ j hj; simp at hj
  | cons hd tl ih =>
      intro h j hj
      cases hd with
      | none => simp [addFileScan] at h
      | some g =>
          simp only [addFileScan, Option.map_eq_none'] at h
          cases j with
          | zero => rfl
          | succ j => exact ih h j (by simpa using hj)

/-- C9 counterexample: on a freshly created task (whose stdio slots 0/1/2
are pushed unset by `Task::new`), `add_file` hands out slot 0 — not a slot
at index 3 or above. -/
theorem add_file_counterexample :
    ((Task.new 1 16384).1.add_file ⟨0, 0, 0⟩).1 = 0 ∧
      ¬ 3 ≤ ((Task.new 1 16384).1.add_file ⟨0, 0, 0⟩).1 := by
  constructor <;> decide

/-- C9 amended: `add_file` returns the lowest empty slot of the whole
table — the reserved-looking slots 0/1/2 included whenever they are unset
— or appends a new slot when no slot is free; in a task whose slots 0–3
are all populated, closing fd 3 and then adding a file reuses slot 3
without growing the table. -/
theorem add_file_lowest_free_slot :
    (∀ (t : Task) (f : FileDescriptor),
      ((t.add_file f).2.fd_table.getD (t.add_file f).1 none = some f) ∧
      (∀ j, j < (t.add_file f).1 → (t.fd_table.getD j none).isSome = true) ∧
      ((t.add_file f).1 ≤ t.fd_table.length) ∧
      ((t.add_file f).1 < t.fd_table.length →
        t.fd_table.getD (t.add_file f).1 none = none)) ∧
    (∀ (inA inB inC inD inE : FileDescriptor),
      ∀ k : Kernel, ∀ t : Task,
        k.current = some t →
        t.fd_table = [some inA, some inB, some inC, some inD] →
        ∀ t' : Task, (sys_close k 3).2.current = some t' →
          (t'.add_file inE).1 = 3 ∧ (t'.add_file inE).2.fd_table.length = 4) := by
  constructor
  · intro t f
    unfold Task.add_file
    cases h : addFileScan f t.fd_table with
    | some p =>
        obtain ⟨h1, h2, h3, h4⟩ := addFileScan_some f t.fd_table p.1 p.2 (by simpa using h)
        simp only
        refine ⟨?_, h3, Nat.le_of_lt h1, fun _ => h2⟩
        rw [h4]
        have : p.1 < (t.fd_table.set p.1 (some f)).length := by simpa using h1
        simp [List.getD, List.getElem?_set_self (by simpa using h1)]
    | none =>
        simp only
        refine ⟨?_, fun j hj => addFileScan_none f t.fd_table h j hj, le_refl _, fun hlt => absurd hlt (by omega)⟩
        simp [List.getD, List.getElem?_append_right (le_refl t.fd_table.length)]
  · intro inA inB inC inD inE k t hcur htbl t' hcur'
    have hclose : (sys_close k 3).2.current =
        some { t with fd_table := t.fd_table.set 3 none } := by
      simp [sys_close, hcur, htbl]
    rw [hclose] at hcur'
    obtain rfl : t' = { t with fd_table := t.fd_table.set 3 none } :=
      (Option.some.injEq .. ▸ hcur').symm
    constructor <;>
      simp [Task.add_file, addFileScan, htbl]

/-- A populated descriptor slot is in bounds. -/
theorem getD_some_lt {l : List (Option FileDescriptor)} {fd : Nat} {f : FileDescriptor}
    (h : l.getD fd none = some f) : fd < l.length := by
  by_contra hn
  rw [List.getD_eq_getElem?_getD, List.getElem?_eq_none (by omega)] at h
  simp at h

/-- Reading back a just-set slot. -/
theorem getD_set_self {l : List (Option FileDescriptor)} {fd : Nat}
    (x : Option FileDescriptor) (h : fd < l.length) :
    (l.set fd x).getD fd none = x := by
  rw [List.getD_eq_getElem?_getD, List.getElem?_set_self (by simpa using h)]
  rfl

/-- C10: with a populated descriptor at `fd`, `sys_lseek` under
`whence = 2` (SEEK_END) is a pure read — it returns the unchanged offset
and leaves the whole kernel state (descriptor included) untouched; any
`whence > 2` returns `-22` (EINVAL) with the state untouched; so only
whence 0 and 1 ever modify the descriptor. -/
theorem sys_lseek_end_and_invalid_frame (k : Kernel) (task : Task) (fd : Nat)
    (file : FileDescriptor) (off : Int)
    (hcur : k.current = some task)
    (hfd : task.fd_table.getD fd none = some file) :
    sys_lseek k fd off 2 = (isizeOf file.offset, k) ∧
    (∀ whence : Nat, 2 < whence → sys_lseek k fd off whence = (-22, k)) ∧
    (∀ whence : Nat, 2 ≤ whence → (sys_lseek k fd off whence).2 = k) := by
  rw [List.getD_eq_getElem?_getD] at hfd
  refine ⟨?_, ?_, ?_⟩
  · simp [sys_lseek, hcur, hfd]
  · intro whence hw
    have h0 : whence ≠ 0 := by omega
    have h1 : whence ≠ 1 := by omega
    have h2 : whence ≠ 2 := by omega
    simp [sys_lseek, hcur, hfd, h0, h1, h2]
  · intro whence hw
    have h0 : whence ≠ 0 := by omega
    have h1 : whence ≠ 1 := by omega
    by_cases h2 : whence = 2 <;> simp [sys_lseek, hcur, hfd, h0, h1, h2]

/-- Concrete kernel objects used by witnesses. -/
def fdSample : FileDescriptor := ⟨0, 5, 0⟩

def taskSample : Task :=
  { (Task.new 1 0).1 with fd_table := [none, none, none, some fdSample] }

def kSample : Kernel :=
  { kernelBase with current := some taskSample, inodes := [⟨[10, 20, 30, 40, 50, 60, 70]⟩] }

theorem sys_lseek_end_and_invalid_frame_witness :
    kSample.current = some taskSample ∧
    taskSample.fd_table.getD 3 none = some fdSample ∧
    (sys_lseek kSample 3 7 2 = (isizeOf fdSample.offset, kSample) ∧
     (∀ whence : Nat, 2 < whence → sys_lseek kSample 3 7 whence = (-22, kSample)) ∧
     (∀ whence : Nat, 2 ≤ whence → (sys_lseek kSample 3 7 whence).2 = kSample)) :=
  ⟨rfl, by decide,
   sys_lseek_end_and_invalid_frame kSample taskSample 3 fdSample 7 rfl (by decide)⟩

/-- Concrete kernel whose current task has descriptor 1 populated (backed
by the 3-byte inode 0) and every other slot empty. -/
def taskFd1 : Task :=
  { (Task.new 1 0).1 with fd_table := [none, some ⟨0, 0, 0⟩, none] }

def kFd1 : Kernel :=
  { kernelBase with current := some taskFd1, inodes := [⟨[10, 20, 30]⟩] }

/-- Concrete kernel whose current task is fresh (slots 0/1/2 unset). -/
def kFresh : Kernel := { kernelBase with current := some (Task.new 1 0).1 }

/-- C4 counterexample: `sys_read` has no console bypass for fd 1/2. On a
task whose descriptor 1 is populated, `sys_read(1, …)` goes through the
descriptor table — it returns the inode's count and advances descriptor
1's offset; and on a fresh task whose slot 1 is unset it returns `-9`
(EBADF) instead of reading from a console sink. -/
theorem sys_read_no_console_bypass :
    ((sys_read kFd1 1 500 3).1 = 3 ∧
     (sys_read kFd1 1 500 3).2.current =
       some { taskFd1 with fd_table := [none, some ⟨0, 3, 0⟩, none] }) ∧
    sys_read kFresh 1 500 3 = (-9, kFresh) := by
  exact ⟨⟨by decide, by decide⟩, rfl⟩

/-- C4 amended: only `sys_write` bypasses the descriptor table for fd 1/2
(console sink, returns `count` unchanged-state); `sys_read` consults the
table for every fd.  For every other fd in `sys_write` and every fd in
`sys_read`: a populated slot advances that descriptor's offset by exactly
the count the backing inode reports transferred and returns that count,
and an absent or empty slot returns `-9` (EBADF). -/
theorem rw_console_offset_ebadf :
    (∀ (k : Kernel) (bufPtr count : Nat),
      sys_write k 1 bufPtr count = (isizeOf count, k) ∧
      sys_write k 2 bufPtr count = (isizeOf count, k)) ∧
    (∀ (k : Kernel) (task : Task) (fd bufPtr count : Nat),
      k.current = some task → task.fd_table.getD fd none = none →
      sys_read k fd bufPtr count = (-9, k) ∧
      (fd ≠ 1 → fd ≠ 2 → sys_write k fd bufPtr count = (-9, k))) ∧
    (∀ (k : Kernel) (task : Task) (fd bufPtr count : Nat) (file : FileDescriptor),
      k.current = some task → task.fd_table.getD fd none = some file →
      (sys_read k fd bufPtr count).1 =
          isizeOf ((k.inodeAt file.inode).read_at file.offset count).2 ∧
      (sys_read k fd bufPtr count).2.current = some { task with
        fd_table := task.fd_table.set fd (some { file with offset :=
          (file.offset + ((k.inodeAt file.inode).read_at file.offset count).2) % U64 }) } ∧
      (fd ≠ 1 → fd ≠ 2 →
        (sys_write k fd bufPtr count).1 =
          isizeOf ((k.inodeAt file.inode).write_at file.offset
            (readBytes k.umem bufPtr count)).2 ∧
        (sys_write k fd bufPtr count).2.current = some { task with
          fd_table := task.fd_table.set fd (some { file with offset :=
            (file.offset + ((k.inodeAt file.inode).write_at file.offset
              (readBytes k.umem bufPtr count)).2) % U64 }) })) := by
  refine ⟨?_, ?_, ?_⟩
  · intro k bufPtr count
    constructor <;> simp [sys_write]
  · intro k task fd bufPtr count hcur hfd
    rw [List.getD_eq_getElem?_getD] at hfd
    exact ⟨by simp [sys_read, hcur, hfd],
           fun h1 h2 => by simp [sys_write, hcur, hfd, h1, h2]⟩
  · intro k task fd bufPtr count file hcur hfd
    rw [List.getD_eq_getElem?_getD] at hfd
    refine ⟨by simp [sys_read, hcur, hfd], by simp [sys_read, hcur, hfd], ?_⟩
    intro h1 h2
    exact ⟨by simp [sys_write, hcur, hfd, h1, h2],
           by simp [sys_write, hcur, hfd, h1, h2]⟩

theorem rw_console_offset_ebadf_witness :
    (sys_write kernelBase 1 500 4 = (isizeOf 4, kernelBase) ∧
     sys_write kernelBase 2 500 4 = (isizeOf 4, kernelBase)) ∧
    (kFresh.current = some (Task.new 1 0).1 ∧
     (Task.new 1 0).1.fd_table.getD 0 none = none ∧
     sys_read kFresh 0 500 4 = (-9, kFresh)) ∧
    (kFd1.current = some taskFd1 ∧
     taskFd1.fd_table.getD 1 none = some ⟨0, 0, 0⟩ ∧
     (sys_read kFd1 1 500 4).1 =
       isizeOf ((kFd1.inodeAt (0 : Nat)).read_at 0 4).2) :=
  ⟨rw_console_offset_ebadf.1 kernelBase 500 4,
   ⟨rfl, by decide,
    (rw_console_offset_ebadf.2.1 kFresh (Task.new 1 0).1 0 500 4 rfl (by decide)).1⟩,
   ⟨rfl, by decide,
    (rw_console_offset_ebadf.2.2 kFd1 taskFd1 1 500 4 ⟨0, 0, 0⟩ rfl (by decide)).1⟩⟩

/-- C2: `sys_fork` returns the new child's pid to the parent, and the
child's descriptor table is the parent's cloned by reference (identical
`Arc` inode references entry for entry — the inode store is untouched, so
nothing is deep-copied); but the child's saved context is zeroed
(`saved_rsp = 0`, `saved_rip = 0`) rather than primed to resume the
syscall returning 0, so the child can never resume returning 0 as the
claim requires. -/
theorem sys_fork_shares_fds_but_zeroes_child_context (k : Kernel) (parent : Task)
    (hcur : k.current = some parent) :
    (sys_fork k).1 = isizeOf k.nextPid ∧
    (sys_fork k).2.allTasks = k.allTasks ++ [(parent.fork k.nextPid 0 0).1] ∧
    (sys_fork k).2.runQueue = k.runQueue ++ [(parent.fork k.nextPid 0 0).1] ∧
    (parent.fork k.nextPid 0 0).1.id = k.nextPid ∧
    (parent.fork k.nextPid 0 0).1.parent_id = parent.id ∧
    (parent.fork k.nextPid 0 0).1.fd_table = parent.fd_table ∧
    (sys_fork k).2.inodes = k.inodes ∧
    (parent.fork k.nextPid 0 0).1.saved_rsp = 0 ∧
    (parent.fork k.nextPid 0 0).1.saved_rip = 0 := by
  refine ⟨?_, ?_, ?_, rfl, rfl, rfl, ?_, rfl, rfl⟩ <;>
    simp [sys_fork, hcur, spawn_task, Task.fork]

theorem sys_fork_shares_fds_but_zeroes_child_context_witness :
    kFd1.current = some taskFd1 ∧
    ((sys_fork kFd1).1 = isizeOf kFd1.nextPid ∧
     (taskFd1.fork kFd1.nextPid 0 0).1.fd_table = taskFd1.fd_table ∧
     (sys_fork kFd1).2.inodes = kFd1.inodes ∧
     (taskFd1.fork kFd1.nextPid 0 0).1.saved_rsp = 0 ∧
     (taskFd1.fork kFd1.nextPid 0 0).1.saved_rip = 0) :=
  ⟨rfl,
   (sys_fork_shares_fds_but_zeroes_child_context kFd1 taskFd1 rfl).1,
   (sys_fork_shares_fds_but_zeroes_child_context kFd1 taskFd1 rfl).2.2.2.2.2.1,
   (sys_fork_shares_fds_but_zeroes_child_context kFd1 taskFd1 rfl).2.2.2.2.2.2.1,
   (sys_fork_shares_fds_but_zeroes_child_context kFd1 taskFd1 rfl).2.2.2.2.2.2.2.1,
   (sys_fork_shares_fds_but_zeroes_child_context kFd1 taskFd1 rfl).2.2.2.2.2.2.2.2⟩

/-- C7: `dispatch` is total over syscall numbers, and every number outside
the implemented set falls through to the single fixed "not implemented"
code `-38` (ENOSYS), with the kernel state untouched — no fault, no
panic. -/
theorem dispatch_unknown_enosys (nr a0 a1 a2 : Nat) (k : Kernel)
    (h : nr ∉ implementedSyscalls) :
    dispatch nr a0 a1 a2 k = .ret (-38) k := by
  simp only [implementedSyscalls, List.mem_cons, List.not_mem_nil, or_false, not_or] at h
  obtain ⟨e0, e1, e2, e3, e4, e5, e8, e9, e11, e12, e16, e32, e33, e22, e39,
    e57, e56, e59, e60, e61, e96, e35, e228, e63, e79, e80, e102, e104, e107, e108⟩ := h
  simp [dispatch, e0, e1, e2, e3, e4, e5, e8, e9, e11, e12, e16, e32, e33, e22,
    e39, e57, e56, e59, e60, e61, e96, e35, e228, e63, e79, e80, e102, e104, e107, e108]

theorem dispatch_unknown_enosys_witness :
    (1000 : Nat) ∉ implementedSyscalls ∧
    dispatch 1000 0 0 0 kernelBase = .ret (-38) kernelBase :=
  ⟨by decide, dispatch_unknown_enosys 1000 0 0 0 kernelBase (by decide)⟩

/-- The spec's concrete RELATIVE relocation example. -/
def lib400 : LoadedLibrary := ⟨0x400000, 0, 0, 0, 0, 0, 0, 0⟩

def rela8 : Elf64Rela := ⟨0x10, 8, 0x20⟩

/-- C8: for every RELATIVE relocation entry (`r_info` type field 8),
`apply_relocation` stores the 8-byte value `base + addend` at address
`base + r_offset` (both wrapping in `u64`); in particular with
`base = 0x400000, r_offset = 0x10, addend = 0x20` it writes `0x400020` at
address `0x400010`. -/
theorem apply_relocation_relative (m : Mem) (lib : LoadedLibrary) (rela : Elf64Rela)
    (h : rela.r_info % 4294967296 = 8) :
    apply_relocation m lib rela =
      writeU64 m ((lib.base_addr + rela.r_offset) % U64)
        ((lib.base_addr + u64ofInt rela.r_addend) % U64) ∧
    readU64 (apply_relocation (fun _ => 0) lib400 rela8) 0x400010 = 0x400020 := by
  constructor
  · unfold apply_relocation
    rw [if_pos h]
  · decide

theorem apply_relocation_relative_witness :
    rela8.r_info % 4294967296 = 8 ∧
    (apply_relocation (fun _ => 0) lib400 rela8 =
      writeU64 (fun _ => 0) ((lib400.base_addr + rela8.r_offset) % U64)
        ((lib400.base_addr + u64ofInt rela8.r_addend) % U64) ∧
     readU64 (apply_relocation (fun _ => 0) lib400 rela8) 0x400010 = 0x400020) :=
  ⟨by decide, apply_relocation_relative (fun _ => 0) lib400 rela8 (by decide)⟩

/-- C5: `setup_user_stack(0x8000, ["a","bc"], [], [])` lays out, from the
returned pointer: `argc = 2`, two non-null argv pointers, a null argv
terminator, a null envp terminator, and an `AT_NULL` auxv pair; the
pointers resolve to NUL-terminated copies of `"a"` (at 0x7FE0) and `"bc"`
(at 0x7FF0).  But the returned `sp = 0x7FA8` is only 8-byte aligned: it is
`8 (mod 16)`, violating the claimed (and ABI-required) 16-byte alignment:
below the 16-aligned auxv area the code pushes `3 + argc + #envp`
eight-byte words, which leaves `sp ≡ 8 (mod 16)` whenever `argc + #envp`
is even, as here. -/
theorem setup_user_stack_layout_and_misalignment :
    (setup_user_stack 0x8000 [[97], [98, 99]] [] []).1 = 0x7FA8 ∧
    readU64 (setup_user_stack 0x8000 [[97], [98, 99]] [] []).2 0x7FA8 = 2 ∧
    readU64 (setup_user_stack 0x8000 [[97], [98, 99]] [] []).2 0x7FB0 = 0x7FE0 ∧
    readU64 (setup_user_stack 0x8000 [[97], [98, 99]] [] []).2 0x7FB8 = 0x7FF0 ∧
    (0x7FE0 ≠ 0 ∧ 0x7FF0 ≠ 0) ∧
    readU64 (setup_user_stack 0x8000 [[97], [98, 99]] [] []).2 0x7FC0 = 0 ∧
    readU64 (setup_user_stack 0x8000 [[97], [98, 99]] [] []).2 0x7FC8 = 0 ∧
    readU64 (setup_user_stack 0x8000 [[97], [98, 99]] [] []).2 0x7FD0 = 0 ∧
    readU64 (setup_user_stack 0x8000 [[97], [98, 99]] [] []).2 0x7FD8 = 0 ∧
    ((setup_user_stack 0x8000 [[97], [98, 99]] [] []).2 0x7FE0 = 97 ∧
     (setup_user_stack 0x8000 [[97], [98, 99]] [] []).2 0x7FE1 = 0) ∧
    ((setup_user_stack 0x8000 [[97], [98, 99]] [] []).2 0x7FF0 = 98 ∧
     (setup_user_stack 0x8000 [[97], [98, 99]] [] []).2 0x7FF1 = 99 ∧
     (setup_user_stack 0x8000 [[97], [98, 99]] [] []).2 0x7FF2 = 0) ∧
    (setup_user_stack 0x8000 [[97], [98, 99]] [] []).1 % 8 = 0 ∧
    (setup_user_stack 0x8000 [[97], [98, 99]] [] []).1 % 16 = 8 := by
  decide

/-- A 120-byte buffer: valid ELF64 header (magic, class 2, `phoff = 64`,
`phentsize = 56`, `phnum = 1`) followed by one in-bounds `PT_LOAD` program
header whose segment data is out of range: `p_offset = 200`,
`p_filesz = 16` (200 + 16 > 120), `p_vaddr = 0x1000`, `p_memsz = 32`. -/
def badSegElf : List Nat :=
  [0x7f, 0x45, 0x4c, 0x46, 2, 1, 1, 0, 0, 0, 0, 0, 0, 0, 0, 0,
   2, 0, 0x3e, 0, 1, 0, 0, 0,
   0, 0, 0, 0, 0, 0, 0, 0,
   64, 0, 0, 0, 0, 0, 0, 0,
   0, 0, 0, 0, 0, 0, 0, 0,
   0, 0, 0, 0,
   64, 0, 56, 0, 1, 0, 0, 0, 0, 0, 0, 0] ++
  [1, 0, 0, 0, 5, 0, 0, 0,
   200, 0, 0, 0, 0, 0, 0, 0,
   0, 16, 0, 0, 0, 0, 0, 0,
   0, 0, 0, 0, 0, 0, 0, 0,
   16, 0, 0, 0, 0, 0, 0, 0,
   32, 0, 0, 0, 0, 0, 0, 0,
   0, 16, 0, 0, 0, 0, 0, 0]

/-- C6 counterexample: a malformed binary whose `PT_LOAD` file range
`p_offset + p_filesz` exceeds the buffer does *not* produce an error
value: `load_elf` panics on the slice `&data[p_offset..p_offset+p_filesz]`
— and only after having already mapped the segment
(`make_user_accessible(0x1000, 32)` is on the trace). -/
theorem load_elf_segment_oob_panics :
    loadElf badSegElf 0 = (.panicked, [(0x1000, 32)]) := by
  decide

/-- C6 amended: a buffer too small for the ELF64 header, wrong magic
bytes, a class byte other than 2, or a program-header entry lying beyond
the buffer each make `load_elf` return its descriptive error value — with
no memory mapping performed before the error in all four cases; segment
data beyond the buffer, however, is not validated and panics (previous
theorem). -/
theorem load_elf_malformed_errors :
    (∀ (data : List Nat) (base : Nat), data.length < 64 →
      loadElf data base = (.err "Data too small for ELF header", [])) ∧
    (∀ (data : List Nat) (base : Nat), 64 ≤ data.length →
      ¬(data.getD 0 0 = 0x7f ∧ data.getD 1 0 = 0x45 ∧
        data.getD 2 0 = 0x4c ∧ data.getD 3 0 = 0x46) →
      loadElf data base = (.err "Invalid ELF magic", [])) ∧
    (∀ (data : List Nat) (base : Nat), 64 ≤ data.length →
      (data.getD 0 0 = 0x7f ∧ data.getD 1 0 = 0x45 ∧
       data.getD 2 0 = 0x4c ∧ data.getD 3 0 = 0x46) →
      data.getD 4 0 ≠ 2 →
      loadElf data base = (.err "Not a 64-bit ELF", [])) ∧
    (∀ (data : List Nat) (base : Nat), 64 ≤ data.length →
      (data.getD 0 0 = 0x7f ∧ data.getD 1 0 = 0x45 ∧
       data.getD 2 0 = 0x4c ∧ data.getD 3 0 = 0x46) →
      data.getD 4 0 = 2 →
      1 ≤ readLE data 56 2 →
      data.length < readLE data 32 8 + 56 →
      loadElf data base = (.err "Program header out of bounds", [])) := by
  refine ⟨?_, ?_, ?_, ?_⟩
  · intro data base h
    simp [loadElf, h]
  · intro data base h hm
    rw [loadElf, if_neg (by omega), if_pos hm]
  · intro data base h hm hc
    rw [loadElf, if_neg (by omega), if_neg (by simpa using hm), if_pos hc]
  · intro data base h hm hc hn hoob
    rw [loadElf, if_neg (by omega), if_neg (by simpa using hm),
        if_neg (by simpa using hc)]
    obtain ⟨c, hcnt⟩ : ∃ c, readLE data 56 2 = c + 1 :=
      ⟨readLE data 56 2 - 1, by omega⟩
    rw [hcnt]
    unfold phdrLoop
    rw [if_pos (by simpa using hoob)]

theorem load_elf_malformed_errors_witness :
    ((List.replicate 10 0).length < 64 ∧
     loadElf (List.replicate 10 0) 0 = (.err "Data too small for ELF header", [])) ∧
    (loadElf (List.replicate 64 0) 0 = (.err "Invalid ELF magic", [])) ∧
    (loadElf ([0x7f, 0x45, 0x4c, 0x46] ++ List.replicate 60 0) 0 =
       (.err "Not a 64-bit ELF", [])) ∧
    (loadElf (badSegElf.take 64) 0 = (.err "Program header out of bounds", [])) :=
  ⟨⟨by decide, load_elf_malformed_errors.1 (List.replicate 10 0) 0 (by decide)⟩,
   load_elf_malformed_errors.2.1 (List.replicate 64 0) 0 (by decide) (by decide),
   load_elf_malformed_errors.2.2.1 ([0x7f, 0x45, 0x4c, 0x46] ++ List.replicate 60 0) 0
     (by decide) (by decide) (by decide),
   load_elf_malformed_errors.2.2.2 (badSegElf.take 64) 0
     (by decide) (by decide) (by decide) (by decide) (by decide)⟩

/-- The scheduler after tasks A, B, C (pids 1, 2, 3) have been spawned in
that order into a fresh scheduler. -/
def spawn3 : Scheduler :=
  let s0 : Scheduler := ⟨[], [], none, 1⟩
  (((s0.spawn).2.spawn).2.spawn).2

/-- The cyclic sequence A, B, C, A, B, C, … of the three spawned pids. -/
def cyc3 (i : Nat) : Nat :=
  if i % 3 = 0 then 1 else if i % 3 = 1 then 2 else 3

/-- The state after the first `schedule()` call on `spawn3`. -/
def spawn3after1 : Scheduler := (spawn3.schedule).2

/-- Three further `schedule()` calls return the scheduler to the same
state: the round robin has period 3. -/
theorem spawn3_period3 :
    (((spawn3after1.schedule).2.schedule).2.schedule).2 = spawn3after1 := by
  decide

theorem schedNth_spawn3after1 : ∀ i, schedNth spawn3after1 i = some (cyc3 (i + 1)) := by
  intro i
  induction i using Nat.strong_induction_on with
  | _ i ih =>
      match i, ih with
      | 0, _ => decide
      | 1, _ => decide
      | 2, _ => decide
      | j + 3, ih =>
          have hstep : schedNth spawn3after1 (j + 3) =
              schedNth ((((spawn3after1.schedule).2.schedule).2.schedule).2) j := rfl
          rw [hstep, spawn3_period3, ih j (by omega)]
          have h3 : (j + 1) % 3 = (j + 3 + 1) % 3 := by omega
          simp [cyc3, h3]

/-- C3: three tasks spawned in order A, B, C into the (spec-modelled)
scheduler driven by the timer interrupt, never blocked or terminated, are
selected by repeated `schedule()` calls in the cyclic order
A, B, C, A, B, C, …; each call pops the queue head, requeues the
previously running task at the tail (still Ready), and returns the next
pid without performing the context switch. -/
theorem schedule_round_robin_cyclic : ∀ i, schedNth spawn3 i = some (cyc3 i) := by
  intro i
  cases i with
  | zero => decide
  | succ j =>
      have : schedNth spawn3 (j + 1) = schedNth spawn3after1 j := rfl
      rw [this, schedNth_spawn3after1 j]

/-- A task with slots 0–3 all populated, and the same task after
`sys_close(3)`. -/
def taskFull4 : Task :=
  { (Task.new 1 0).1 with
      fd_table := [some fdSample, some fdSample, some fdSample, some fdSample] }

def kFull4 : Kernel := { kernelBase with current := some taskFull4 }

def taskFull4closed : Task := { taskFull4 with fd_table := taskFull4.fd_table.set 3 none }

theorem add_file_lowest_free_slot_witness :
    (kFull4.current = some taskFull4 ∧
     taskFull4.fd_table = [some fdSample, some fdSample, some fdSample, some fdSample] ∧
     (sys_close kFull4 3).2.current = some taskFull4closed ∧
     ((taskFull4closed.add_file fdSample).1 = 3 ∧
      (taskFull4closed.add_file fdSample).2.fd_table.length = 4)) ∧
    (taskSample.add_file fdSample).2.fd_table.getD (taskSample.add_file fdSample).1 none =
      some fdSample :=
  ⟨⟨rfl, rfl, by decide,
    add_file_lowest_free_slot.2 fdSample fdSample fdSample fdSample fdSample
      kFull4 taskFull4 rfl rfl taskFull4closed (by decide)⟩,
   (add_file_lowest_free_slot.1 taskSample fdSample).1⟩

end Aether
